import Mathlib

/-!
Verification of the scene-text parsing, scene-count reconciliation,
style translation and image-prompt assembly pipeline of the
choose-your-story application.

Strings are modelled by Lean `String`; the character-level scanning that
the source performs with JavaScript regular expressions is modelled by
explicit executable functions over `List Char`.
-/

/-! ## Character and string utilities -/

/-- Whitespace test mirroring the JavaScript regular-expression class `\s`
(ASCII whitespace plus the usual Unicode space characters), which is also
the character class removed by `String.prototype.trim`. -/
def jsSpace (c : Char) : Bool :=
  c = ' ' || c = '\t' || c = '\n' || c = '\r' ||
  c.val = 11 || c.val = 12 ||
  c.val = 0xA0 || c.val = 0x1680 ||
  (0x2000 ≤ c.val && c.val ≤ 0x200A) ||
  c.val = 0x2028 || c.val = 0x2029 || c.val = 0x202F ||
  c.val = 0x205F || c.val = 0x3000 || c.val = 0xFEFF

/-- Decimal-digit test mirroring the JavaScript class `\d`. -/
def jsDigit (c : Char) : Bool := '0' ≤ c && c ≤ '9'

/-- Case folding used to model case-insensitive regular-expression
matching: ASCII uppercase letters and the accented uppercase letters that
occur in the source patterns are mapped to lowercase. -/
def charFold (c : Char) : Char :=
  if 'A' ≤ c && c ≤ 'Z' then Char.ofNat (c.toNat + 32)
  else if c = 'Á' then 'á' else if c = 'À' then 'à'
  else if c = 'Â' then 'â' else if c = 'Ã' then 'ã'
  else if c = 'É' then 'é' else if c = 'Ê' then 'ê'
  else if c = 'Í' then 'í' else if c = 'Ó' then 'ó'
  else if c = 'Ô' then 'ô' else if c = 'Õ' then 'õ'
  else if c = 'Ú' then 'ú' else if c = 'Ç' then 'ç'
  else c

/-- Case-insensitive literal match: when the pattern is a case-insensitive
prefix of the input, return the input that remains after it. -/
def matchCI : List Char → List Char → Option (List Char)
  | [], cs => some cs
  | _ :: _, [] => none
  | p :: ps, c :: cs => if charFold p = charFold c then matchCI ps cs else none

/-- Remove trailing JavaScript whitespace. -/
def dropTrail (cs : List Char) : List Char := (cs.reverse.dropWhile jsSpace).reverse

/-- Model of `String.prototype.trim` on character lists. -/
def jsTrimL (cs : List Char) : List Char := dropTrail (cs.dropWhile jsSpace)

/-- Model of `String.prototype.trim`. -/
def jsTrim (s : String) : String := String.mk (jsTrimL s.data)

/-- Model of `String.prototype.toLowerCase` restricted to the characters
this code base uses. -/
def lowerStr (s : String) : String := String.mk (s.data.map charFold)

/-- The characters `xs` occur contiguously inside `ys` (the property tested
by `String.prototype.includes`). -/
def SegOf (xs ys : List Char) : Prop := ∃ s t, s ++ xs ++ t = ys

/-- Executable prefix test on character lists. -/
def matchPre : List Char → List Char → Bool
  | [], _ => true
  | _ :: _, [] => false
  | p :: ps, c :: cs => p == c && matchPre ps cs

/-- Executable contiguous-occurrence test on character lists (the model of
`String.prototype.includes`). -/
def hasSeg (xs : List Char) : List Char → Bool
  | [] => matchPre xs []
  | c :: cs => matchPre xs (c :: cs) || hasSeg xs cs

/-- Split a character list at every newline, as `content.split('\n')`. -/
def splitOnNL : List Char → List (List Char)
  | [] => [[]]
  | c :: cs =>
    if c = '\n' then [] :: splitOnNL cs
    else
      match splitOnNL cs with
      | [] => [[c]]
      | l :: ls => (c :: l) :: ls

/-! ## Scene parser (`processScenes` in `src/api/openai.ts`)

The parser output unit: the four text fields of a scene draft. -/

structure SceneDraft where
  title : String
  description : String
  narration : String
  dialogue : String
deriving DecidableEq, Repr

/-- Match the scene-marker pattern `Cena\s+\d+\s*:` (case-insensitive) at
the head of the input, returning the rest of the input after the match. -/
def matchMarker (cs : List Char) : Option (List Char) :=
  match matchCI (("Cena").data) cs with
  | none => none
  | some r1 =>
    match r1 with
    | [] => none
    | c :: r2 =>
      if jsSpace c then
        match r2.dropWhile jsSpace with
        | [] => none
        | d :: r4 =>
          if jsDigit d then
            match (r4.dropWhile jsDigit).dropWhile jsSpace with
            | ':' :: r7 => some r7
            | _ => none
          else none
      else none

/-- Fuel-driven scanner behind `splitCena`; the fuel is the length of the
input, which bounds the number of scanning steps since every step consumes
at least one character. -/
def splitCenaAux : Nat → List Char → List Char → List (List Char)
  | 0, cs, acc => [acc.reverse ++ cs]
  | _ + 1, [], acc => [acc.reverse]
  | fuel + 1, c :: cs, acc =>
    match matchMarker (c :: cs) with
    | some rest => acc.reverse :: splitCenaAux fuel rest []
    | none => splitCenaAux fuel cs (c :: acc)

/-- Model of `content.split(/Cena\s+\d+\s*:/i)`. -/
def splitCena (cs : List Char) : List (List Char) := splitCenaAux cs.length cs []

/-- Match a field label followed by optional whitespace and a colon
(`Label\s*:`, case-insensitive) at the head of the input, returning the
rest of the input after the colon. -/
def matchLabelColon (label : List Char) (cs : List Char) : Option (List Char) :=
  match matchCI label cs with
  | none => none
  | some r1 =>
    match r1.dropWhile jsSpace with
    | ':' :: r2 => some r2
    | _ => none

/-- The lazy single-line capture `(.*?)(?:\r?\n|$)`: characters up to the
next line break or the end of the input; `none` when a bare carriage
return (or a Unicode line separator, which `.` cannot match) blocks the
match. -/
def lazyToEOL : List Char → Option (List Char)
  | [] => some []
  | c :: cs =>
    if c = '\n' then some []
    else if c = '\r' then
      match cs with
      | '\n' :: _ => some []
      | [] => none
      | _ :: _ => none
    else if c.val = 0x2028 || c.val = 0x2029 then none
    else (lazyToEOL cs).map (fun l => c :: l)

/-- Backtracking over the greedy `\s*` that precedes the title capture:
try the maximal whitespace run first, then shorter runs. -/
def tryFromWs : Nat → List Char → Option (List Char)
  | 0, cs => lazyToEOL cs
  | j + 1, cs =>
    match lazyToEOL (cs.drop (j + 1)) with
    | some cap => some cap
    | none => tryFromWs j cs

/-- Capture of the title pattern tail `\s*(.*?)(?:\r?\n|$)`. -/
def titleCapture (cs : List Char) : Option (List Char) :=
  tryFromWs (cs.takeWhile jsSpace).length cs

/-- Search a block for the first position where the whole title pattern
`Título\s*:\s*(.*?)(?:\r?\n|$)` matches, returning the captured text. -/
def findTitleCap : List Char → Option (List Char)
  | [] => none
  | c :: cs =>
    match matchLabelColon (("Título").data) (c :: cs) with
    | some r =>
      match titleCapture r with
      | some cap => some cap
      | none => findTitleCap cs
    | none => findTitleCap cs

/-- Does one of the stop lookaheads (`Label\s*:`) match at this position? -/
def stopsHere (stops : List (List Char)) (cs : List Char) : Bool :=
  stops.any (fun l => (matchLabelColon l cs).isSome)

/-- The lazy multi-line capture `([\s\S]*?)` up to the first position where
a stop lookahead matches, or to the end of the block. -/
def captureUntilStop (stops : List (List Char)) : List Char → List Char
  | [] => []
  | c :: cs => if stopsHere stops (c :: cs) then [] else c :: captureUntilStop stops cs

/-- Search a block for the first occurrence of `label\s*:` and capture the
lazily-matched field body up to the next stop label or the end. -/
def findFieldCap (label : List Char) (stops : List (List Char)) : List Char → Option (List Char)
  | [] => none
  | c :: cs =>
    match matchLabelColon label (c :: cs) with
    | some r => some (captureUntilStop stops (r.dropWhile jsSpace))
    | none => findFieldCap label stops cs

/-- A captured optional field: empty when the pattern did not match or the
capture is falsy, otherwise the trimmed capture. -/
def optCapToField (o : Option (List Char)) : String :=
  match o with
  | some cap => if cap.isEmpty then "" else String.mk (jsTrimL cap)
  | none => ""

/-- Build one scene draft from the `i`-th block produced by the marker
split (block-split strategy of `processScenes`). -/
def tier1Scene (i : Nat) (block : List Char) : SceneDraft :=
  { title :=
      match findTitleCap block with
      | some cap => if cap.isEmpty then "Cena " ++ toString i else String.mk (jsTrimL cap)
      | none => "Cena " ++ toString i
    description :=
      optCapToField (findFieldCap (("Descrição").data)
        [("Narração").data, ("Diálogo").data] block)
    narration :=
      optCapToField (findFieldCap (("Narração").data) [("Diálogo").data] block)
    dialogue :=
      optCapToField (findFieldCap (("Diálogo").data) [] block) }

/-- Block-split strategy: split on the scene marker and parse every block
after the first split point. -/
def tier1 (content : List Char) : List SceneDraft :=
  (((splitCena content).drop 1).enum).map (fun p => tier1Scene (p.1 + 1) (jsTrimL p.2))

/-- The field cursor of the line-scanning strategy. -/
inductive FieldSel
  | ftitle
  | fdesc
  | fnarr
  | fdiag
deriving DecidableEq, Repr

/-- Match the full-line scene marker `^Cena\s+(\d+)\s*:?\s*$`
(case-insensitive), returning the captured digits. -/
def lineSceneMarker (line : List Char) : Option (List Char) :=
  match matchCI (("Cena").data) line with
  | none => none
  | some r1 =>
    match r1 with
    | [] => none
    | c :: r2 =>
      if jsSpace c then
        let r3 := r2.dropWhile jsSpace
        let ds := r3.takeWhile jsDigit
        if ds.isEmpty then none
        else
          let r4 := (r3.dropWhile jsDigit).dropWhile jsSpace
          let r5 := match r4 with
            | ':' :: r => r
            | r => r
          if (r5.dropWhile jsSpace).isEmpty then some ds else none
      else none

/-- If the line starts with `label\s*:`, return the trimmed text after the
colon (the value seeded into the field), as the source replace of the
pattern caret-Label-spaces-colon-spaces by the empty string, then trimmed. -/
def labelValue (label : List Char) (line : List Char) : Option (List Char) :=
  match matchLabelColon label line with
  | some r => some (jsTrimL r)
  | none => none

/-- State of the line-scanning strategy: finished scenes, the open scene
and the current field cursor. -/
structure T2State where
  scenes : List SceneDraft
  cur : Option SceneDraft
  field : Option FieldSel

/-- Append a continuation line to the current field (space separator for
the title, newline separator for the multi-line fields). -/
def appendField (d : SceneDraft) (f : FieldSel) (line : String) : SceneDraft :=
  match f with
  | .ftitle => { d with title := if d.title ≠ "" then d.title ++ " " ++ line else line }
  | .fdesc =>
    { d with description :=
        if d.description ≠ "" then d.description ++ "\n" ++ line else line }
  | .fnarr =>
    { d with narration := if d.narration ≠ "" then d.narration ++ "\n" ++ line else line }
  | .fdiag =>
    { d with dialogue := if d.dialogue ≠ "" then d.dialogue ++ "\n" ++ line else line }

/-- One step of the line-scanning strategy of `processScenes`. -/
def t2Line (st : T2State) (rawLine : List Char) : T2State :=
  let line := jsTrimL rawLine
  match lineSceneMarker line with
  | some ds =>
    { scenes := st.scenes ++ (match st.cur with | some c => [c] | none => []),
      cur := some
        { title := "Cena " ++ String.mk ds, description := "", narration := "", dialogue := "" },
      field := none }
  | none =>
    match st.cur with
    | none => st
    | some cur =>
      match labelValue (("Título").data) line with
      | some v =>
        { st with
          cur := some { cur with title := if v.isEmpty then cur.title else String.mk v },
          field := some .ftitle }
      | none =>
      match labelValue (("Descrição").data) line with
      | some v =>
        { st with
          cur := some { cur with description := if v.isEmpty then cur.description else String.mk v },
          field := some .fdesc }
      | none =>
      match labelValue (("Narração").data) line with
      | some v =>
        { st with
          cur := some { cur with narration := if v.isEmpty then cur.narration else String.mk v },
          field := some .fnarr }
      | none =>
      match labelValue (("Diálogo").data) line with
      | some v =>
        { st with
          cur := some { cur with dialogue := if v.isEmpty then cur.dialogue else String.mk v },
          field := some .fdiag }
      | none =>
        match st.field with
        | some f =>
          if line.isEmpty then st
          else { st with cur := some (appendField cur f (String.mk line)) }
        | none => st

/-- Line-scanning strategy: fold the line machine over the lines and push
the still-open scene at the end. -/
def tier2 (content : List Char) : List SceneDraft :=
  let st := (splitOnNL content).foldl t2Line ⟨[], none, none⟩
  st.scenes ++ (match st.cur with | some c => [c] | none => [])

/-- Default-fill strategy: `numScenes` placeholder drafts whose
descriptions quote a 30-character prefix of the story proposal. -/
def defaultScenes (numScenes : Nat) (proposal : String) : List SceneDraft :=
  (List.range numScenes).map (fun i =>
    { title := "Cena " ++ toString (i + 1),
      description :=
        "Parte " ++ toString (i + 1) ++ " da história sobre \"" ++
          String.mk (proposal.data.take 30) ++ "...\"",
      narration := "Cena sem conteúdo específico.",
      dialogue := "" })

/-- The three-tier parser `processScenes(content, numScenes, storyProposal)`:
block split, then line scanning when that found nothing, then default
fill when both found nothing. -/
def processScenes (content : String) (numScenes : Nat) (proposal : String) : List SceneDraft :=
  let s1 := tier1 content.data
  let s2 := if s1.length = 0 then tier2 content.data else s1
  if s2.length = 0 then defaultScenes numScenes proposal else s2

/-! ## Scene generation adjustment (`generateScenes` in `src/api/openai.ts`) -/

/-- `Math.min(Math.max(numScenes, 3), 15)`. -/
def clampCount (n : Nat) : Nat := min (max n 3) 15

/-- The filler draft pushed by `generateScenes` when the parser returned
fewer scenes than requested. -/
def fillScene (proposal : String) (i : Nat) : SceneDraft :=
  { title := "Cena " ++ toString (i + 1),
    description := "Continuação da história em " ++ String.mk (proposal.data.take 50) ++ "...",
    narration := "A história continua...",
    dialogue := "" }

/-- The pure content of `generateScenes`: parse the model output, then pad
with filler drafts or cut to the clamped requested count. -/
def generateScenesResult (content proposal : String) (numScenes : Nat) : List SceneDraft :=
  let actual := clampCount numScenes
  let ps := processScenes content actual proposal
  if ps.length < actual then
    ps ++ (List.range' ps.length (actual - ps.length)).map (fillScene proposal)
  else
    ps.take actual

/-! ## Orchestrator reconciliation (`generateStoryScenes` in
`src/controllers/storyController.ts`) -/

/-- The synthetic draft appended by the while loop of
`generateStoryScenes`: continuation of the current last draft when one
exists, generic placeholders otherwise. -/
def mkPadScene (gs : List SceneDraft) : SceneDraft :=
  match gs.getLast? with
  | some last =>
    { title := "Cena " ++ toString (gs.length + 1),
      description := "Continuação: " ++ last.description,
      narration := last.narration,
      dialogue := last.dialogue }
  | none =>
    { title := "Cena " ++ toString (gs.length + 1),
      description := "Nova cena",
      narration := "Narração da cena",
      dialogue := "" }

/-- The padding while loop, driven by the number of missing drafts. -/
def padScenes (gs : List SceneDraft) : Nat → List SceneDraft
  | 0 => gs
  | k + 1 => padScenes (gs ++ [mkPadScene gs]) k

/-- The adjustment block of `generateStoryScenes`: pad while too short,
slice when too long, otherwise unchanged. -/
def adjustScenes (gs : List SceneDraft) (target : Nat) : List SceneDraft :=
  if gs.length < target then padScenes gs (target - gs.length)
  else if target < gs.length then gs.take target
  else gs

/-- Drafts of the full text pipeline: `generateScenes` output reconciled
against the requested count by `generateStoryScenes`. -/
def generateStoryScenesDrafts (content proposal : String) (numScenes : Nat) : List SceneDraft :=
  adjustScenes (generateScenesResult content proposal numScenes) numScenes

/-! ## Persisted scenes (`sceneController.ts`) -/

/-- A persisted scene: a draft plus identity, sequencing and media. -/
structure Scene where
  id : String
  storyId : String
  order : Nat
  title : String
  description : String
  narration : String
  dialogue : String
  imageUrl : String
deriving DecidableEq, Repr

/-- `createScene(storyId, order, data)`, with the identifier supplier
abstracting `uuidv4`. -/
def createScene (ids : Nat → String) (storyId : String) (order : Nat) (d : SceneDraft) : Scene :=
  { id := ids order,
    storyId := storyId,
    order := order,
    title := if d.title ≠ "" then d.title else "Cena " ++ toString (order + 1),
    description := d.description,
    narration := d.narration,
    dialogue := d.dialogue,
    imageUrl := "" }

/-- The scene objects created by the loop of `generateStoryScenes`, one
per reconciled draft, with ascending `order`. -/
def mkSceneObjects (ids : Nat → String) (storyId : String) (drafts : List SceneDraft) :
    List Scene :=
  drafts.enum.map (fun p => createScene ids storyId p.1 p.2)

/-- The four optional text-field updates accepted by `updateScene`; the
empty string models an absent or empty (falsy) field. -/
structure SceneUpdates where
  title : String := ""
  description : String := ""
  narration : String := ""
  dialogue : String := ""

/-- `updateScene`: each of the four text fields is overwritten only when
the supplied value is truthy. -/
def updateScene (s : Scene) (u : SceneUpdates) : Scene :=
  let s1 := if u.title ≠ "" then { s with title := u.title } else s
  let s2 := if u.description ≠ "" then { s1 with description := u.description } else s1
  let s3 := if u.narration ≠ "" then { s2 with narration := u.narration } else s2
  if u.dialogue ≠ "" then { s3 with dialogue := u.dialogue } else s3

/-! ## Style translation and image-prompt assembly
(`src/api/imageGeneration.ts`) -/

/-- The fixed bilingual style table of `translateStyleToEnglish`. -/
def styleMap : List (String × String) :=
  [("realista", "photorealistic"),
   ("fotorrealista", "hyper-realistic"),
   ("aquarela", "watercolor painting"),
   ("cartoon", "cartoon"),
   ("anime", "anime style"),
   ("óleo", "oil painting"),
   ("pastel", "pastel drawing"),
   ("pixelart", "pixel art"),
   ("pintura", "painting")]

/-- `translateStyleToEnglish(style)`: empty input falls back to
`realistic`, known lowercase keys map through the table, unknown terms
pass through unchanged. -/
def translateStyleToEnglish (style : String) : String :=
  if style = "" then "realistic"
  else
    match styleMap.find? (fun p => p.1 == lowerStr style) with
    | some p => p.2
    | none => style

/-- The scene data `generateImage` reads: the four text fields and the
sequence position (`order = 0` models both the first scene and an absent
`order`, which are both falsy in the source). -/
structure ImgScene where
  title : String := ""
  description : String := ""
  narration : String := ""
  dialogue : String := ""
  order : Nat := 0
deriving DecidableEq, Repr

/-- The fixed character-consistency instruction prepended when previous
images exist. -/
def consistencyInstr : String :=
  "Mantenha a aparência consistente dos personagens com as cenas anteriores. "

/-- The fixed prefix of every description-based image prompt. -/
def imgPrefix : String := "Create an image based on this description: "

/-- The placeholder path substituted for failed image generation. -/
def placeholderUrl : String := "/images/placeholder.jpg"

/-- Continuity sentence appended in the direct-prompt path for
non-initial scenes. -/
def seqTailDirect (order : Nat) : String :=
  " Esta é a cena " ++ toString (order + 1) ++
    " de uma sequência contínua. Mantenha os personagens visualmente idênticos às cenas anteriores."

/-- Continuity sentence appended in the description and alternative-text
paths for non-initial scenes. -/
def seqTailDesc (order : Nat) : String :=
  " Esta é a cena " ++ toString (order + 1) ++
    " de uma sequência contínua. Mantenha os mesmos personagens, com a mesma aparência física, roupas e cores das cenas anteriores."

/-- The 1000-character cut applied before the image API call in the
description and alternative-text paths. -/
def trunc1000 (s : String) : String :=
  if 1000 < s.length then String.mk (s.data.take 1000) else s

/-- Match `estilo\s+([^\s,]+)` at the head of the input, returning the
captured style token. -/
def matchStyleTok (cs : List Char) : Option (List Char) :=
  match matchCI (("estilo").data) cs with
  | none => none
  | some r1 =>
    match r1 with
    | [] => none
    | c :: r2 =>
      if jsSpace c then
        let tok := (r2.dropWhile jsSpace).takeWhile (fun d => !jsSpace d && d ≠ ',')
        if tok.isEmpty then none else some tok
      else none

/-- Search for the first occurrence of `estilo\s+([^\s,]+)` in the
prompt. -/
def findStyleTok : List Char → Option (List Char)
  | [] => none
  | c :: cs =>
    match matchStyleTok (c :: cs) with
    | some tok => some tok
    | none => findStyleTok cs

/-- The prompt assembled by `generateStyleSample`: the style extracted
from the sample prompt (or the style argument as fallback), translated,
plus a fixed demonstration phrase. No truncation and no consistency
instruction on this path. -/
def styleSamplePrompt (prompt style : String) : String :=
  let requested :=
    match findStyleTok prompt.data with
    | some tok => String.mk tok
    | none => style
  translateStyleToEnglish requested ++ " style image with people"

/-- The prompt `generateImage(prompt, style, scene, previousImages)` hands
to the image API: `none` when the function returns the placeholder
without calling the API. Mirrors the four paths of the source: style
sample, direct custom prompt, scene description, alternative text. -/
def buildImagePrompt (prompt style : String) (scene : Option ImgScene)
    (previousImages : List String) : Option String :=
  let cons := if 0 < previousImages.length then consistencyInstr else ""
  if hasSeg (("Ilustração no estilo").data) prompt.data then
    some (styleSamplePrompt prompt style)
  else if jsTrim prompt ≠ "" then
    let base := imgPrefix ++ cons ++ jsTrim prompt
    some (match scene with
      | some sc => if 0 < sc.order then base ++ seqTailDirect sc.order else base
      | none => base)
  else
    match scene with
    | none => none
    | some sc =>
      if jsTrim sc.description ≠ "" then
        let base := imgPrefix ++ cons ++ jsTrim sc.description
        let base := if 0 < sc.order then base ++ seqTailDesc sc.order else base
        let base := if jsTrim style ≠ "" then translateStyleToEnglish style ++ " " ++ base else base
        some (trunc1000 base)
      else
        let alt :=
          if jsTrim sc.narration ≠ "" then jsTrim sc.narration
          else if jsTrim sc.dialogue ≠ "" then jsTrim sc.dialogue
          else if jsTrim sc.title ≠ "" then jsTrim sc.title
          else ""
        if alt ≠ "" then
          let base := imgPrefix ++ cons ++ alt
          let base := if 0 < sc.order then base ++ seqTailDesc sc.order else base
          let base := if jsTrim style ≠ "" then translateStyleToEnglish style ++ " " ++ base else base
          some (trunc1000 base)
        else none

/-! ## Sequential image generation (`generateImagesForStory`) -/

/-- Reading of a scene by the image generator. -/
def toImgScene (s : Scene) : ImgScene :=
  { title := s.title, description := s.description, narration := s.narration,
    dialogue := s.dialogue, order := s.order }

/-- Success test used when chaining a generated URL forward as a
consistency reference (truthy and not the placeholder). -/
def imgSuccess (u : String) : Bool := u != "" && u != placeholderUrl

/-- Outcome of one `updateSceneImage` call: the placeholder when no prompt
was built or the API failed or returned no URL, otherwise the URL. The
`api` argument models the response of the external image service. -/
def imageCallResult (api : Option String) (promptBuilt : Option String) : String :=
  match promptBuilt with
  | none => placeholderUrl
  | some _ =>
    match api with
    | some url => if url = "" then placeholderUrl else url
    | none => placeholderUrl

/-- One image call of the sequential loop: the scene order, the
previous-images argument supplied to the call, and the resulting URL. -/
structure ImgCall where
  order : Nat
  prevArg : List String
  url : String
deriving DecidableEq, Repr

/-- The sequential loop of `generateImagesForStory`: process scenes in
list order, handing the accumulated previous-image list to each call and
appending each successful URL to it. -/
def imagesLoop (api : Nat → Option String) (style : String) :
    List Scene → Nat → List String → List ImgCall
  | [], _, _ => []
  | sc :: rest, k, prev =>
    let u := imageCallResult (api k) (buildImagePrompt "" style (some (toImgScene sc)) prev)
    let prev2 := if imgSuccess u then prev ++ [u] else prev
    { order := sc.order, prevArg := prev, url := u } :: imagesLoop api style rest (k + 1) prev2

/-- `getScenesByStory`: the scenes of one story sorted ascending by
`order`. -/
def getScenesByStory (storyId : String) (store : List Scene) : List Scene :=
  List.insertionSort (fun a b => a.order ≤ b.order)
    (store.filter (fun s => s.storyId == storyId))

/-- The image calls performed by `generateImagesForStory(storyId, style)`,
starting from an empty previous-image list. -/
def generateImagesCalls (api : Nat → Option String) (style storyId : String)
    (store : List Scene) : List ImgCall :=
  imagesLoop api style (getScenesByStory storyId store) 0 []

/-! ## Concrete inputs used by individual claims -/

/-- A single well-formed scene block. -/
def c4Input : String := "Cena 1:\nTítulo: A\nDescrição: B\nNarração: C\nDiálogo: D"

/-- A block parsing to exactly one draft, used to exercise the padding of
`generateScenes`. -/
def c5Content : String := "Cena 1:\nTítulo: A\nDescrição: X\nNarração: Y\nDiálogo: Z"

/-- A concrete scene store: three scenes of one story (listed out of
order) and one scene of another story. -/
def c7Store : List Scene :=
  [⟨"i1", "sA", 1, "t1", "d1", "", "", ""⟩,
   ⟨"i0", "sA", 0, "t0", "d0", "", "", ""⟩,
   ⟨"i2", "sA", 2, "t2", "d2", "", "", ""⟩,
   ⟨"ix", "sB", 0, "tx", "dx", "", "", ""⟩]

/-- A concrete image-service behaviour: the second call fails, the others
return URLs. -/
def c7Api (k : Nat) : Option String :=
  if k = 1 then none else some ("http://u" ++ toString k)

/-! ## Theorems -/

theorem matchPre_iff (xs : List Char) : ∀ ys, matchPre xs ys = true ↔ ∃ t, xs ++ t = ys := by
  induction xs with
  | nil => intro ys; simp [matchPre]
  | cons p ps ih =>
    intro ys
    cases ys with
    | nil =>
      simp only [matchPre]
      constructor
      · intro h; cases h
      · rintro ⟨t, ht⟩; cases ht
    | cons c cs =>
      simp only [matchPre, Bool.and_eq_true, beq_iff_eq, ih]
      constructor
      · rintro ⟨rfl, t, rfl⟩; exact ⟨t, rfl⟩
      · rintro ⟨t, ht⟩
        rw [List.cons_append] at ht
        obtain ⟨rfl, h2⟩ := List.cons.inj ht
        exact ⟨rfl, t, h2⟩

theorem hasSeg_iff (xs : List Char) : ∀ ys, hasSeg xs ys = true ↔ SegOf xs ys := by
  intro ys
  induction ys with
  | nil =>
    simp only [hasSeg, matchPre_iff, SegOf]
    constructor
    · rintro ⟨t, ht⟩
      exact ⟨[], t, by simpa using ht⟩
    · rintro ⟨s, t, hst⟩
      have hs : s = [] := by
        cases s with
        | nil => rfl
        | cons a l => cases hst
      subst hs
      exact ⟨t, by simpa using hst⟩
  | cons c cs ih =>
    simp only [hasSeg, Bool.or_eq_true, matchPre_iff, ih, SegOf]
    constructor
    · rintro (⟨t, ht⟩ | ⟨s, t, hst⟩)
      · exact ⟨[], t, by simpa using ht⟩
      · exact ⟨c :: s, t, by simp [hst]⟩
    · rintro ⟨s, t, hst⟩
      cases s with
      | nil => exact Or.inl ⟨t, by simpa using hst⟩
      | cons a l =>
        rw [List.cons_append, List.cons_append] at hst
        obtain ⟨rfl, h2⟩ := List.cons.inj hst
        exact Or.inr ⟨l, t, h2⟩

theorem segOf_trans {xs ys zs : List Char} (h1 : SegOf xs ys) (h2 : SegOf ys zs) :
    SegOf xs zs := by
  obtain ⟨s1, t1, rfl⟩ := h1
  obtain ⟨s2, t2, rfl⟩ := h2
  exact ⟨s2 ++ s1, t1 ++ t2, by simp⟩

/-- Decomposition of a contiguous occurrence inside an appended list:
the occurrence lies in the left part, in the right part, or crosses the
boundary. -/
theorem segOf_append_cases {xs as bs : List Char} (h : SegOf xs (as ++ bs)) :
    SegOf xs as ∨ SegOf xs bs ∨
      ∃ x₁ x₂, x₁ ++ x₂ = xs ∧ x₁ ≠ [] ∧ x₂ ≠ [] ∧
        (∃ s, s ++ x₁ = as) ∧ (∃ t, x₂ ++ t = bs) := by
  obtain ⟨s, t, hst⟩ := h
  rw [List.append_assoc] at hst
  rcases List.append_eq_append_iff.mp hst with ⟨a', ha1, ha2⟩ | ⟨c', hc1, hc2⟩
  · rcases List.append_eq_append_iff.mp ha2 with ⟨b', hb1, hb2⟩ | ⟨d', hd1, hd2⟩
    · left
      exact ⟨s, b', by rw [ha1, hb1, List.append_assoc]⟩
    · cases a' with
      | nil =>
        right; left
        refine ⟨[], t, ?_⟩
        simp only [List.nil_append] at hd1
        simp [← hd1, hd2]
      | cons a0 al =>
        cases d' with
        | nil =>
          left
          refine ⟨s, [], ?_⟩
          simp only [List.append_nil] at hd1
          rw [ha1, ← hd1, List.append_nil]
        | cons d0 dl =>
          right; right
          refine ⟨a0 :: al, d0 :: dl, hd1.symm, by simp, by simp, ⟨s, ha1.symm⟩, ⟨t, hd2.symm⟩⟩
  · right; left
    exact ⟨c', t, by rw [List.append_assoc, hc2]⟩

theorem segOf_length_le {xs ys : List Char} (h : SegOf xs ys) : xs.length ≤ ys.length := by
  obtain ⟨s, t, rfl⟩ := h
  simp only [List.length_append]
  omega

theorem mem_of_segOf {c : Char} {xs ys : List Char} (hc : c ∈ xs) (h : SegOf xs ys) :
    c ∈ ys := by
  obtain ⟨s, t, rfl⟩ := h
  simp [hc]

/-- Everything the trim removes is at the two ends, so the trimmed list is
a contiguous segment of the original. -/
theorem segOf_jsTrimL (cs : List Char) : SegOf (jsTrimL cs) cs := by
  refine ⟨cs.takeWhile jsSpace, ((cs.dropWhile jsSpace).reverse.takeWhile jsSpace).reverse, ?_⟩
  have h1 : jsTrimL cs ++ ((cs.dropWhile jsSpace).reverse.takeWhile jsSpace).reverse
      = cs.dropWhile jsSpace := by
    unfold jsTrimL dropTrail
    rw [← List.reverse_append, List.takeWhile_append_dropWhile, List.reverse_reverse]
  rw [List.append_assoc, h1, List.takeWhile_append_dropWhile]

theorem all_space_of_jsTrimL_eq_nil {cs : List Char} (h : jsTrimL cs = []) :
    ∀ c ∈ cs, jsSpace c = true := by
  intro c hc
  have hsplit : cs = cs.takeWhile jsSpace ++ cs.dropWhile jsSpace :=
    (List.takeWhile_append_dropWhile jsSpace cs).symm
  unfold jsTrimL dropTrail at h
  have h2 : (cs.dropWhile jsSpace).reverse.dropWhile jsSpace = [] := by
    have := congrArg List.reverse h
    simpa using this
  have hall2 : ∀ c ∈ (cs.dropWhile jsSpace).reverse, jsSpace c = true := by
    intro d hd
    have h3 : (cs.dropWhile jsSpace).reverse.takeWhile jsSpace ++
        (cs.dropWhile jsSpace).reverse.dropWhile jsSpace = (cs.dropWhile jsSpace).reverse :=
      List.takeWhile_append_dropWhile jsSpace (cs.dropWhile jsSpace).reverse
    rw [h2, List.append_nil] at h3
    rw [← h3] at hd
    exact List.mem_takeWhile_imp hd
  rw [hsplit] at hc
  rcases List.mem_append.mp hc with h3 | h3
  · exact List.mem_takeWhile_imp h3
  · exact hall2 c (List.mem_reverse.mpr h3)

/-! ### Length lemmas for the reconciler -/

theorem padScenes_length : ∀ (k : Nat) (gs : List SceneDraft),
    (padScenes gs k).length = gs.length + k := by
  intro k
  induction k with
  | zero => intro gs; simp [padScenes]
  | succ k ih =>
    intro gs
    show (padScenes (gs ++ [mkPadScene gs]) k).length = gs.length + (k + 1)
    rw [ih]
    simp
    omega

theorem adjustScenes_length (gs : List SceneDraft) (target : Nat) :
    (adjustScenes gs target).length = target := by
  unfold adjustScenes
  split_ifs with h1 h2
  · rw [padScenes_length]; omega
  · simp only [List.length_take]; omega
  · omega

theorem defaultScenes_length (n : Nat) (proposal : String) :
    (defaultScenes n proposal).length = n := by
  simp [defaultScenes]

/-- Claim C1: for every raw text and every requested count in the closed range
three to fifteen, parsing followed by the two-stage reconciliation yields
exactly the requested number of scene drafts, and therefore the scene
objects stored on the story are exactly that many. -/
theorem scene_count_reconciled (content proposal : String) (n : Nat)
    (h3 : 3 ≤ n) (h15 : n ≤ 15) (ids : Nat → String) (sid : String) :
    (generateStoryScenesDrafts content proposal n).length = n ∧
    (mkSceneObjects ids sid (generateStoryScenesDrafts content proposal n)).length = n := by
  have h := adjustScenes_length (generateScenesResult content proposal n) n
  refine ⟨h, ?_⟩
  simpa [mkSceneObjects] using h

theorem scene_count_reconciled_witness :
    (generateStoryScenesDrafts "" "x" 5).length = 5 ∧
    (mkSceneObjects (fun _ => "id") "s" (generateStoryScenesDrafts "" "x" 5)).length = 5 :=
  scene_count_reconciled "" "x" 5 (by decide) (by decide) (fun _ => "id") "s"

/-- Either both parsing tiers found nothing and the parser returns the
default fill, or the parser returns a non-empty tier result. -/
theorem processScenes_cases (content proposal : String) (n : Nat) :
    (tier1 content.data = [] ∧ tier2 content.data = [] ∧
      processScenes content n proposal = defaultScenes n proposal) ∨
    (processScenes content n proposal).length ≠ 0 := by
  unfold processScenes
  by_cases h1 : (tier1 content.data).length = 0
  · by_cases h2 : (tier2 content.data).length = 0
    · left
      exact ⟨List.length_eq_zero.mp h1, List.length_eq_zero.mp h2, by simp [h1, h2]⟩
    · right; simp [h1, h2]
  · right; simp [h1]

/-- Claim C3: the parser is total and, for every input string and every expected
count in range, returns at least one draft; when neither the block-split
tier nor the line-scanning tier finds a scene (in particular on the empty
string) it returns exactly `n` placeholder drafts whose descriptions
quote a 30-character prefix of the story proposal. -/
theorem parser_never_fails (content proposal : String) (n : Nat) (h3 : 3 ≤ n) :
    1 ≤ (processScenes content n proposal).length ∧
    (tier1 content.data = [] → tier2 content.data = [] →
      processScenes content n proposal = defaultScenes n proposal) ∧
    processScenes "" n proposal = defaultScenes n proposal ∧
    (defaultScenes n proposal).length = n ∧
    (∀ i, i < n → (defaultScenes n proposal)[i]? =
      some
        { title := "Cena " ++ toString (i + 1),
          description :=
            "Parte " ++ toString (i + 1) ++ " da história sobre \"" ++
              String.mk (proposal.data.take 30) ++ "...\"",
          narration := "Cena sem conteúdo específico.",
          dialogue := "" }) := by
  have hdefault : ∀ c : String, tier1 c.data = [] → tier2 c.data = [] →
      processScenes c n proposal = defaultScenes n proposal := by
    intro c h1 h2
    unfold processScenes
    simp [h1, h2]
  have hempty : processScenes "" n proposal = defaultScenes n proposal :=
    hdefault "" (by decide) (by decide)
  refine ⟨?_, hdefault content, hempty, defaultScenes_length n proposal, ?_⟩
  · rcases processScenes_cases content proposal n with ⟨_, _, heq⟩ | hne
    · rw [heq, defaultScenes_length]; omega
    · omega
  · intro i hi
    simp [defaultScenes, List.getElem?_range, hi]

theorem parser_never_fails_witness :
    1 ≤ (processScenes "" 3 "abc").length ∧
    (tier1 ("" : String).data = [] → tier2 ("" : String).data = [] →
      processScenes "" 3 "abc" = defaultScenes 3 "abc") ∧
    processScenes "" 3 "abc" = defaultScenes 3 "abc" ∧
    (defaultScenes 3 "abc").length = 3 ∧
    (∀ i, i < 3 → (defaultScenes 3 "abc")[i]? =
      some
        { title := "Cena " ++ toString (i + 1),
          description :=
            "Parte " ++ toString (i + 1) ++ " da história sobre \"" ++
              String.mk (("abc" : String).data.take 30) ++ "...\"",
          narration := "Cena sem conteúdo específico.",
          dialogue := "" }) :=
  parser_never_fails "" "abc" 3 (by decide)

/-- Claim C4: a single well-formed scene block (marker line followed by the four
labelled field lines with contents A, B, C, D) parses to exactly one draft
with the labels stripped and the fields trimmed, independently of the
expected count and the proposal. -/
theorem well_formed_block_roundtrip (n : Nat) (proposal : String) :
    processScenes c4Input n proposal =
      [{ title := "A", description := "B", narration := "C", dialogue := "D" }] := by
  have h1 : tier1 c4Input.data =
      [{ title := "A", description := "B", narration := "C", dialogue := "D" }] := by decide
  unfold processScenes
  rw [h1]
  rfl

/-- Claim C6: both truncation sites keep exactly the first `target` drafts
unchanged: the adjustment of `generateStoryScenes` when the input is
longer than the target, and the slice of `generateScenes` when the parser
produced more drafts than the clamped request. -/
theorem truncation_keeps_first_drafts (gs : List SceneDraft) (target : Nat)
    (h : target < gs.length) (content proposal : String) (n : Nat)
    (h2 : clampCount n < (processScenes content (clampCount n) proposal).length) :
    adjustScenes gs target = gs.take target ∧
    generateScenesResult content proposal n =
      (processScenes content (clampCount n) proposal).take (clampCount n) := by
  constructor
  · unfold adjustScenes
    rw [if_neg (by omega), if_pos h]
  · unfold generateScenesResult
    rw [if_neg (by omega)]

theorem truncation_keeps_first_drafts_witness :
    adjustScenes
      [⟨"1", "", "", ""⟩, ⟨"2", "", "", ""⟩, ⟨"3", "", "", ""⟩, ⟨"4", "", "", ""⟩,
       ⟨"5", "", "", ""⟩, ⟨"6", "", "", ""⟩, ⟨"7", "", "", ""⟩] 5 =
      ([⟨"1", "", "", ""⟩, ⟨"2", "", "", ""⟩, ⟨"3", "", "", ""⟩, ⟨"4", "", "", ""⟩,
        ⟨"5", "", "", ""⟩, ⟨"6", "", "", ""⟩, ⟨"7", "", "", ""⟩] : List SceneDraft).take 5 ∧
    generateScenesResult "Cena 1:Cena 2:Cena 3:Cena 4:" "p" 3 =
      (processScenes "Cena 1:Cena 2:Cena 3:Cena 4:" (clampCount 3) "p").take (clampCount 3) :=
  truncation_keeps_first_drafts
    [⟨"1", "", "", ""⟩, ⟨"2", "", "", ""⟩, ⟨"3", "", "", ""⟩, ⟨"4", "", "", ""⟩,
     ⟨"5", "", "", ""⟩, ⟨"6", "", "", ""⟩, ⟨"7", "", "", ""⟩] 5 (by decide)
    "Cena 1:Cena 2:Cena 3:Cena 4:" "p" 3 (by decide)

/-- Claim C10: `updateScene` only overwrites the four text fields, each only
when the supplied value is a non-empty (truthy) string, and never touches
the identifier, story reference, order or image URL. -/
theorem updateScene_frame (s : Scene) (u : SceneUpdates) :
    (updateScene s u).id = s.id ∧ (updateScene s u).storyId = s.storyId ∧
    (updateScene s u).order = s.order ∧ (updateScene s u).imageUrl = s.imageUrl ∧
    (updateScene s u).title = (if u.title = "" then s.title else u.title) ∧
    (updateScene s u).description =
      (if u.description = "" then s.description else u.description) ∧
    (updateScene s u).narration = (if u.narration = "" then s.narration else u.narration) ∧
    (updateScene s u).dialogue = (if u.dialogue = "" then s.dialogue else u.dialogue) := by
  unfold updateScene
  split_ifs <;> simp_all

/-- Claim C8: the style translator agrees on the uppercase and lowercase forms
of a known key, passes unknown terms through unchanged, maps the empty
input to the fixed default, and is idempotent. -/
theorem style_translation_props :
    translateStyleToEnglish "REALISTA" = translateStyleToEnglish "realista" ∧
    translateStyleToEnglish "xyz" = "xyz" ∧
    translateStyleToEnglish "" = "realistic" ∧
    ∀ s, translateStyleToEnglish (translateStyleToEnglish s) = translateStyleToEnglish s := by
  refine ⟨by decide, by decide, by decide, ?_⟩
  intro s
  by_cases h0 : s = ""
  · subst h0; decide
  · cases hf : styleMap.find? (fun p => p.1 == lowerStr s) with
    | none =>
      have h1 : translateStyleToEnglish s = s := by
        unfold translateStyleToEnglish
        rw [if_neg h0, hf]
      rw [h1]
      exact h1
    | some p =>
      have h1 : translateStyleToEnglish s = p.2 := by
        unfold translateStyleToEnglish
        rw [if_neg h0, hf]
      rw [h1]
      have hmem : p ∈ styleMap := List.mem_of_find?_eq_some hf
      fin_cases hmem <;> decide

/-! ### Shape of the orchestrator padding -/

theorem mkPadScene_title (gs : List SceneDraft) :
    (mkPadScene gs).title = "Cena " ++ toString (gs.length + 1) := by
  unfold mkPadScene
  cases gs.getLast? <;> rfl

theorem padScenes_snoc : ∀ (k : Nat) (gs : List SceneDraft),
    padScenes gs (k + 1) = padScenes gs k ++ [mkPadScene (padScenes gs k)] := by
  intro k
  induction k with
  | zero => intro gs; simp [padScenes]
  | succ k ih =>
    intro gs
    show padScenes (gs ++ [mkPadScene gs]) (k + 1) = _
    rw [ih (gs ++ [mkPadScene gs])]
    rfl

theorem padScenes_take : ∀ (k : Nat) (gs : List SceneDraft),
    (padScenes gs k).take gs.length = gs := by
  intro k
  induction k with
  | zero => intro gs; exact List.take_length gs
  | succ k ih =>
    intro gs
    rw [padScenes_snoc]
    rw [List.take_append_of_le_length (by rw [padScenes_length]; omega)]
    exact ih gs

/-- Per-element characterization of the padding appended by
`generateStoryScenes`: title from the one-based position, description a
continuation of the immediately preceding draft (or the generic
placeholder when there is none), narration and dialogue copied from the
immediately preceding draft (or the generic defaults). -/
theorem padScenes_getElem : ∀ (k : Nat) (gs : List SceneDraft) (i : Nat),
    gs.length ≤ i → i < gs.length + k →
    ∃ cur, (padScenes gs k)[i]? = some cur ∧
      cur.title = "Cena " ++ toString (i + 1) ∧
      (i = 0 → cur = ⟨"Cena 1", "Nova cena", "Narração da cena", ""⟩) ∧
      (∀ j, i = j + 1 → ∃ prev, (padScenes gs k)[j]? = some prev ∧
        cur.description = "Continuação: " ++ prev.description ∧
        cur.narration = prev.narration ∧ cur.dialogue = prev.dialogue) := by
  intro k
  induction k with
  | zero => intro gs i h1 h2; omega
  | succ k ih =>
    intro gs i h1 h2
    rw [padScenes_snoc]
    have hLlen : (padScenes gs k).length = gs.length + k := padScenes_length k gs
    by_cases hcase : i < gs.length + k
    · obtain ⟨cur, hget, hti, h0, hprev⟩ := ih gs i h1 hcase
      refine ⟨cur, ?_, hti, h0, ?_⟩
      · rw [List.getElem?_append, if_pos (by omega)]
        exact hget
      · intro j hij
        obtain ⟨prev, hpget, hd, hn, hg⟩ := hprev j hij
        refine ⟨prev, ?_, hd, hn, hg⟩
        rw [List.getElem?_append, if_pos (by omega)]
        exact hpget
    · have hi : i = (padScenes gs k).length := by omega
      have hgetx : (padScenes gs k ++ [mkPadScene (padScenes gs k)])[i]? =
          some (mkPadScene (padScenes gs k)) := by
        rw [hi]
        exact List.getElem?_concat_length _ _
      cases hlast : (padScenes gs k).getLast? with
      | none =>
        have hL0 : padScenes gs k = [] := List.getLast?_eq_none_iff.mp hlast
        have hlen0 : (padScenes gs k).length = 0 := by rw [hL0]; rfl
        have hi0 : i = 0 := by omega
        refine ⟨mkPadScene (padScenes gs k), hgetx, ?_, ?_, ?_⟩
        · rw [mkPadScene_title, hi, hLlen]
        · intro _
          unfold mkPadScene
          rw [hlast, hL0]
          rfl
        · intro j hij; omega
      | some last =>
        have hL0 : padScenes gs k ≠ [] := by
          intro h
          rw [h] at hlast
          cases hlast
        have hLpos : 0 < (padScenes gs k).length := List.length_pos.mpr hL0
        refine ⟨mkPadScene (padScenes gs k), hgetx, ?_, ?_, ?_⟩
        · rw [mkPadScene_title, hi, hLlen]
        · intro h0i; omega
        · intro j hij
          have hj : j = (padScenes gs k).length - 1 := by omega
          refine ⟨last, ?_, ?_, ?_, ?_⟩
          · rw [List.getElem?_append, if_pos (by omega), hj,
              ← List.getLast?_eq_getElem? (padScenes gs k)]
            exact hlast
          · unfold mkPadScene; rw [hlast]
          · unfold mkPadScene; rw [hlast]
          · unfold mkPadScene; rw [hlast]

/-- Narration and dialogue of every padded draft are those of the last
real draft, when one exists. -/
theorem padScenes_last_copy : ∀ (k : Nat) (gs : List SceneDraft) (last : SceneDraft),
    gs.getLast? = some last → ∀ i, gs.length ≤ i → i < gs.length + k →
    ∃ cur, (padScenes gs k)[i]? = some cur ∧
      cur.narration = last.narration ∧ cur.dialogue = last.dialogue := by
  intro k
  induction k with
  | zero => intro gs last _ i h1 h2; omega
  | succ k ih =>
    intro gs last hlast i h1 h2
    show ∃ cur, (padScenes (gs ++ [mkPadScene gs]) k)[i]? = some cur ∧ _
    have hpad : mkPadScene gs =
        { title := "Cena " ++ toString (gs.length + 1),
          description := "Continuação: " ++ last.description,
          narration := last.narration,
          dialogue := last.dialogue } := by
      unfold mkPadScene; rw [hlast]
    by_cases hcase : i = gs.length
    · -- the newly appended draft, inside the prefix of the recursive call
      have hget : (padScenes (gs ++ [mkPadScene gs]) k)[i]? = some (mkPadScene gs) := by
        have htake := padScenes_take k (gs ++ [mkPadScene gs])
        have h3 : (padScenes (gs ++ [mkPadScene gs]) k).take (gs ++ [mkPadScene gs]).length =
            gs ++ [mkPadScene gs] := htake
        have h4 : ((padScenes (gs ++ [mkPadScene gs]) k).take
            (gs ++ [mkPadScene gs]).length)[i]? = (gs ++ [mkPadScene gs])[i]? := by rw [h3]
        rw [List.getElem?_take, if_pos (by simp; omega)] at h4
        rw [h4, hcase]
        exact List.getElem?_concat_length _ _
      exact ⟨mkPadScene gs, hget, by rw [hpad], by rw [hpad]⟩
    · -- in the region padded by the recursive call
      have hlast2 : (gs ++ [mkPadScene gs]).getLast? = some (mkPadScene gs) :=
        List.getLast?_concat gs
      obtain ⟨cur, hget, hn, hd⟩ := ih (gs ++ [mkPadScene gs]) (mkPadScene gs) hlast2 i
        (by simp; omega) (by simp; omega)
      refine ⟨cur, hget, ?_, ?_⟩
      · rw [hn, hpad]
      · rw [hd, hpad]

/-- Claim C5 counterexample: after parsing a text that yields a single draft
(description X, narration Y), the pipeline pads to the requested three
drafts inside `generateScenes`; the appended draft has a previous draft,
yet its description is neither a continuation of the description of that draft
nor the no-previous placeholder, and its narration is not copied from the
last real draft. -/
theorem padding_shape_counterexample :
    (generateScenesResult c5Content "P" 3)[0]? =
      some { title := "A", description := "X", narration := "Y", dialogue := "Z" } ∧
    (generateScenesResult c5Content "P" 3)[1]? =
      some { title := "Cena 2",
             description := "Continuação da história em P...",
             narration := "A história continua...",
             dialogue := "" } ∧
    ("Continuação da história em P..." : String) ≠ "Continuação: " ++ "X" ∧
    ("Continuação da história em P..." : String) ≠ "Nova cena" ∧
    ("A história continua..." : String) ≠ "Y" := by
  refine ⟨?_, ?_, by decide, by decide, by decide⟩ <;> decide

/-- Claim C5 amended: the described padding shape holds at the orchestrator
stage (`generateStoryScenes`): appended drafts are titled by their
one-based position, describe a continuation of the immediately preceding
draft (hence, chained, of the last real draft) or a generic placeholder
when there is none, and copy narration and dialogue forward from the last
real draft or default them. The padding inside `generateScenes` instead
always uses a description quoting a 50-character proposal prefix, the
fixed narration `A história continua...` and an empty dialogue
(`fillScene`). -/
theorem padding_shape (gs : List SceneDraft) (target : Nat) (h : gs.length < target) :
    (adjustScenes gs target).length = target ∧
    (adjustScenes gs target).take gs.length = gs ∧
    (∀ i, gs.length ≤ i → i < target →
      ∃ cur, (adjustScenes gs target)[i]? = some cur ∧
        cur.title = "Cena " ++ toString (i + 1) ∧
        (i = 0 → cur = ⟨"Cena 1", "Nova cena", "Narração da cena", ""⟩) ∧
        (∀ j, i = j + 1 → ∃ prev, (adjustScenes gs target)[j]? = some prev ∧
          cur.description = "Continuação: " ++ prev.description ∧
          cur.narration = prev.narration ∧ cur.dialogue = prev.dialogue)) ∧
    (∀ last, gs.getLast? = some last → ∀ i, gs.length ≤ i → i < target →
      ∃ cur, (adjustScenes gs target)[i]? = some cur ∧
        cur.narration = last.narration ∧ cur.dialogue = last.dialogue) ∧
    (∀ content proposal n i,
      (processScenes content (clampCount n) proposal).length < clampCount n →
      (processScenes content (clampCount n) proposal).length ≤ i → i < clampCount n →
      (generateScenesResult content proposal n)[i]? = some (fillScene proposal i)) := by
  have hadj : adjustScenes gs target = padScenes gs (target - gs.length) := by
    unfold adjustScenes
    rw [if_pos h]
  refine ⟨adjustScenes_length gs target, ?_, ?_, ?_, ?_⟩
  · rw [hadj]; exact padScenes_take _ gs
  · intro i hi1 hi2
    rw [hadj]
    exact padScenes_getElem (target - gs.length) gs i hi1 (by omega)
  · intro last hlast i hi1 hi2
    rw [hadj]
    exact padScenes_last_copy (target - gs.length) gs last hlast i hi1 (by omega)
  · intro content proposal n i hlt hi1 hi2
    unfold generateScenesResult
    rw [if_pos (by omega)]
    rw [List.getElem?_append, if_neg (by omega), List.getElem?_map,
      List.getElem?_range' _ _ (by omega : i - (processScenes content (clampCount n) proposal).length < clampCount n - (processScenes content (clampCount n) proposal).length)]
    simp only [Option.map_some']
    congr 1
    congr 1
    omega

theorem padding_shape_witness :
    (adjustScenes [⟨"T", "D", "N", "G"⟩] 3).length = 3 :=
  (padding_shape [⟨"T", "D", "N", "G"⟩] 3 (by decide)).1

/-! ### Length of assembled image prompts -/

theorem trunc1000_length_le (s : String) : (trunc1000 s).length ≤ 1000 := by
  unfold trunc1000
  split_ifs with h
  · show (s.data.take 1000).length ≤ 1000
    simp [List.length_take]
  · omega

theorem dropWhile_replicate_of_neg {n : Nat} {c : Char} {p : Char → Bool} (h : p c = false) :
    (List.replicate n c).dropWhile p = List.replicate n c := by
  cases n with
  | zero => rfl
  | succ m => rw [List.replicate_succ, List.dropWhile_cons_of_neg (by simp [h])]

theorem jsTrimL_replicate_a : jsTrimL (List.replicate 1000 'a') = List.replicate 1000 'a' := by
  unfold jsTrimL dropTrail
  rw [dropWhile_replicate_of_neg (by decide), List.reverse_replicate,
    dropWhile_replicate_of_neg (by decide), List.reverse_replicate]

set_option maxRecDepth 8000 in
/-- Claim C2 counterexample: a 1000-character custom prompt takes the direct
prompt path, which performs no truncation, so the prompt handed to the
image API has 1043 characters. -/
theorem prompt_length_counterexample :
    ((buildImagePrompt (String.mk (List.replicate 1000 'a')) "" none []).map String.length =
      some 1043) ∧ 1000 < 1043 := by
  refine ⟨?_, by omega⟩
  have htrim : jsTrim (String.mk (List.replicate 1000 'a')) =
      String.mk (List.replicate 1000 'a') := by
    unfold jsTrim
    exact congrArg String.mk jsTrimL_replicate_a
  have hne : jsTrim (String.mk (List.replicate 1000 'a')) ≠ "" := by
    intro hc
    have h2 : String.mk (List.replicate 1000 'a') = String.mk [] := htrim.symm.trans hc
    have h3 : List.replicate 1000 'a' = [] := by injection h2
    have h4 := congrArg List.length h3
    rw [List.length_replicate, List.length_nil] at h4
    exact absurd h4 (by decide)
  have hseg : ¬ (hasSeg (("Ilustração no estilo").data)
      (String.mk (List.replicate 1000 'a')).data = true) := by
    intro hb
    have hso := (hasSeg_iff _ _).mp hb
    have hI : 'I' ∈ (("Ilustração no estilo").data) := by decide
    have hIin := mem_of_segOf hI hso
    have := List.eq_of_mem_replicate hIin
    exact absurd this (by decide)
  unfold buildImagePrompt
  rw [if_neg hseg, if_pos hne, htrim]
  have hcons : (if 0 < ([] : List String).length then consistencyInstr else "") = "" := by
    simp
  rw [hcons]
  simp only [Option.map_some']
  show some (String.length (imgPrefix ++ "" ++ String.mk (List.replicate 1000 'a'))) =
    some 1043
  have hlen : String.length (imgPrefix ++ "" ++ String.mk (List.replicate 1000 'a')) =
      imgPrefix.data.length + 0 + 1000 := by
    show (imgPrefix.data ++ ([] : List Char) ++ List.replicate 1000 'a').length = _
    rw [List.length_append, List.length_append, List.length_replicate, List.length_nil]
  rw [hlen]
  rfl

/-- Claim C2 amended: the 1000-character hard truncation applies to the prompts
assembled from the description of a scene or from its alternative text
(narration, dialogue or title); the direct custom-prompt path and the
style-sample path assemble their prompt without truncation, so a long
custom prompt exceeds the limit. -/
theorem scene_prompt_truncated (prompt style : String) (scene : Option ImgScene)
    (prev : List String) (hp : jsTrim prompt = "") (r : String)
    (hr : buildImagePrompt prompt style scene prev = some r) :
    r.length ≤ 1000 := by
  have hseg : ¬ (hasSeg (("Ilustração no estilo").data) prompt.data = true) := by
    intro hb
    have hso := (hasSeg_iff _ _).mp hb
    have hnil : jsTrimL prompt.data = [] := by
      have := congrArg String.data hp
      exact this
    have hsp := all_space_of_jsTrimL_eq_nil hnil
    have hI : 'I' ∈ (("Ilustração no estilo").data) := by decide
    have hIin := mem_of_segOf hI hso
    have := hsp 'I' hIin
    exact absurd this (by decide)
  unfold buildImagePrompt at hr
  rw [if_neg hseg, hp, if_neg (by simp)] at hr
  cases scene with
  | none => exact absurd hr (by simp)
  | some sc =>
    simp only at hr
    split_ifs at hr <;>
      first
        | (injection hr with h; rw [← h]; exact trunc1000_length_le _)
        | cases hr

theorem scene_prompt_truncated_witness :
    ("Create an image based on this description: d" : String).length ≤ 1000 :=
  scene_prompt_truncated "" "" (some ⟨"", "d", "", "", 0⟩) [] (by decide)
    "Create an image based on this description: d" (by decide)

/-! ### Presence of the consistency instruction -/

/-- Claim C9 counterexample: a style-sample call (prompt containing the
style-sample marker) with a non-empty previous-image list produces a
prompt without the character-consistency instruction. -/
theorem consistency_instruction_counterexample :
    buildImagePrompt "Ilustração no estilo cartoon mostrando gatos" "cartoon" none ["url1"] =
      some "cartoon style image with people" ∧
    ¬ SegOf consistencyInstr.data (("cartoon style image with people").data) := by
  constructor
  · decide
  · intro h
    exact absurd ((hasSeg_iff _ _).mpr h) (by decide)

/-- The instruction cannot occur in a prompt built by prefixing the fixed
description header to content that does not contain it: the header has no
capital M, so no occurrence can start inside it. -/
theorem not_segOf_instr_header (body : List Char)
    (hbody : ¬ SegOf consistencyInstr.data body) :
    ¬ SegOf consistencyInstr.data (imgPrefix.data ++ body) := by
  intro hocc
  rcases segOf_append_cases hocc with hA | hB | ⟨x1, x2, hx, hx1, _, ⟨s, hs⟩, _⟩
  · have hM : 'M' ∈ consistencyInstr.data := by decide
    have := mem_of_segOf hM hA
    exact absurd this (by decide)
  · exact hbody hB
  · cases x1 with
    | nil => exact hx1 rfl
    | cons a l =>
      have hcons : a :: (l ++ x2) = consistencyInstr.data := by
        rw [← hx]; rfl
      have hhead := congrArg List.head? hcons
      rw [show consistencyInstr.data.head? = some 'M' from by decide] at hhead
      have ha : a = 'M' := Option.some.inj hhead
      have hmem : a ∈ imgPrefix.data := by
        rw [← hs]
        exact List.mem_append_right s (by simp)
      rw [ha] at hmem
      exact absurd hmem (by decide)

/-- Claim C9 amended: on the direct custom-prompt path (non-empty trimmed
prompt, no style-sample marker, no scene object), the assembled prompt
contains the character-consistency instruction exactly when the
previous-image list is non-empty, provided the custom prompt does not
itself contain the instruction; on the style-sample path the instruction
is never added. -/
theorem consistency_instruction_iff (p style : String) (prev : List String)
    (h1 : jsTrim p ≠ "")
    (h2 : ¬ SegOf (("Ilustração no estilo").data) p.data)
    (h3 : ¬ SegOf consistencyInstr.data p.data)
    (r : String) (hr : buildImagePrompt p style none prev = some r) :
    (SegOf consistencyInstr.data r.data ↔ prev ≠ []) := by
  have hseg : ¬ (hasSeg (("Ilustração no estilo").data) p.data = true) := fun hb =>
    h2 ((hasSeg_iff _ _).mp hb)
  unfold buildImagePrompt at hr
  rw [if_neg hseg, if_pos h1] at hr
  injection hr with h
  cases prev with
  | nil =>
    apply iff_of_false
    · rw [← h]
      intro hocc
      have hocc2 : SegOf consistencyInstr.data (imgPrefix.data ++ (jsTrim p).data) := by
        have hd : (imgPrefix ++ (if 0 < ([] : List String).length then consistencyInstr else "")
            ++ jsTrim p).data = imgPrefix.data ++ (jsTrim p).data := by
          rw [if_neg (by simp)]
          show (imgPrefix.data ++ ([] : List Char)) ++ (jsTrim p).data = _
          rw [List.append_nil]
        rw [hd] at hocc
        exact hocc
      apply not_segOf_instr_header (jsTrim p).data ?_ hocc2
      intro hb
      exact h3 (segOf_trans hb (segOf_jsTrimL p.data))
    · intro hne
      exact hne rfl
  | cons q qs =>
    apply iff_of_true
    · rw [← h]
      refine ⟨imgPrefix.data, (jsTrim p).data, ?_⟩
      show imgPrefix.data ++ consistencyInstr.data ++ (jsTrim p).data =
        ((imgPrefix ++ (if 0 < (q :: qs).length then consistencyInstr else "")
          ++ jsTrim p)).data
      rw [if_pos (by simp)]
      show _ = (imgPrefix.data ++ consistencyInstr.data) ++ (jsTrim p).data
      rw [List.append_assoc]
    · simp

theorem consistency_instruction_iff_witness :
    (SegOf consistencyInstr.data
      (("Create an image based on this description: Mantenha a aparência consistente dos personagens com as cenas anteriores. cats").data)
      ↔ (["u"] : List String) ≠ []) :=
  consistency_instruction_iff "cats" "s" ["u"] (by decide)
    (fun h => absurd ((hasSeg_iff _ _).mpr h) (by decide))
    (fun h => absurd ((hasSeg_iff _ _).mpr h) (by decide))
    "Create an image based on this description: Mantenha a aparência consistente dos personagens com as cenas anteriores. cats"
    (by decide)

/-! ### Sequential image generation -/

theorem imagesLoop_map_order (api : Nat → Option String) (style : String) :
    ∀ (scs : List Scene) (k : Nat) (prev : List String),
    (imagesLoop api style scs k prev).map ImgCall.order = scs.map Scene.order := by
  intro scs
  induction scs with
  | nil => intro k prev; rfl
  | cons sc rest ih => intro k prev; simp only [imagesLoop, List.map_cons, ih]

/-- The previous-images argument of the `i`-th call is the initial list
plus the URLs of the earlier successful calls, in order. -/
theorem imagesLoop_prevArg (api : Nat → Option String) (style : String) :
    ∀ (scs : List Scene) (k : Nat) (prev : List String) (i : Nat) (c : ImgCall),
    (imagesLoop api style scs k prev)[i]? = some c →
    c.prevArg =
      prev ++ (((imagesLoop api style scs k prev).take i).filter
        (fun c2 => imgSuccess c2.url)).map ImgCall.url := by
  intro scs
  induction scs with
  | nil => intro k prev i c hc; simp [imagesLoop] at hc
  | cons sc rest ih =>
    intro k prev i c hc
    have hstep : imagesLoop api style (sc :: rest) k prev =
        { order := sc.order, prevArg := prev,
          url := imageCallResult (api k)
            (buildImagePrompt "" style (some (toImgScene sc)) prev) } ::
        imagesLoop api style rest (k + 1)
          (if imgSuccess (imageCallResult (api k)
              (buildImagePrompt "" style (some (toImgScene sc)) prev)) then
            prev ++ [imageCallResult (api k)
              (buildImagePrompt "" style (some (toImgScene sc)) prev)]
          else prev) := rfl
    rw [hstep] at hc ⊢
    cases i with
    | zero =>
      rw [List.getElem?_cons_zero] at hc
      injection hc with hc
      rw [← hc]
      simp
    | succ i =>
      rw [List.getElem?_cons_succ] at hc
      rw [List.take_succ_cons, List.filter_cons]
      by_cases himg : imgSuccess (imageCallResult (api k)
          (buildImagePrompt "" style (some (toImgScene sc)) prev)) = true
      · rw [if_pos himg] at hc
        rw [ih (k + 1) _ i c hc]
        simp [himg]
      · rw [if_neg himg] at hc
        rw [ih (k + 1) _ i c hc]
        simp [himg]

/-- Claim C7: images are generated over the story scenes sorted in strictly
ascending order, and the previous-images list handed to each call is
exactly the list of URLs of the earlier calls that succeeded; the
placeholder URL never enters that list. -/
theorem images_sequential_consistency (api : Nat → Option String) (style storyId : String)
    (store : List Scene)
    (hnd : ((store.filter (fun s => s.storyId == storyId)).map Scene.order).Nodup) :
    (generateImagesCalls api style storyId store).map ImgCall.order =
      (getScenesByStory storyId store).map Scene.order ∧
    ((generateImagesCalls api style storyId store).map ImgCall.order).Chain' (· < ·) ∧
    (∀ i c, (generateImagesCalls api style storyId store)[i]? = some c →
      c.prevArg =
        (((generateImagesCalls api style storyId store).take i).filter
          (fun c2 => imgSuccess c2.url)).map ImgCall.url) := by
  haveI hTot : IsTotal Scene (fun a b => a.order ≤ b.order) :=
    ⟨fun a b => Nat.le_total a.order b.order⟩
  haveI hTrans : IsTrans Scene (fun a b => a.order ≤ b.order) :=
    ⟨fun _ _ _ h1 h2 => Nat.le_trans h1 h2⟩
  have hmapo : (generateImagesCalls api style storyId store).map ImgCall.order =
      (getScenesByStory storyId store).map Scene.order :=
    imagesLoop_map_order api style _ 0 []
  refine ⟨hmapo, ?_, ?_⟩
  · rw [hmapo]
    have hs : List.Sorted (fun a b : Scene => a.order ≤ b.order)
        (getScenesByStory storyId store) :=
      List.sorted_insertionSort _ _
    have hperm : List.Perm (getScenesByStory storyId store)
        (store.filter (fun s => s.storyId == storyId)) :=
      List.perm_insertionSort _ _
    have hnd2 : ((getScenesByStory storyId store).map Scene.order).Nodup :=
      ((hperm.map Scene.order).nodup_iff).mpr hnd
    have hpair2 : List.Pairwise (fun a b : Scene => a.order ≠ b.order)
        (getScenesByStory storyId store) := List.pairwise_map.mp hnd2
    have hlt : List.Pairwise (fun a b : Scene => a.order < b.order)
        (getScenesByStory storyId store) :=
      (hs.and hpair2).imp (fun h => Nat.lt_of_le_of_ne h.1 h.2)
    exact (List.pairwise_map.mpr hlt).chain'
  · intro i c hc
    simpa using imagesLoop_prevArg api style (getScenesByStory storyId store) 0 [] i c hc

theorem images_sequential_consistency_witness :
    (generateImagesCalls c7Api "cartoon" "sA" c7Store).map ImgCall.order =
      (getScenesByStory "sA" c7Store).map Scene.order ∧
    ((generateImagesCalls c7Api "cartoon" "sA" c7Store).map ImgCall.order).Chain' (· < ·) ∧
    (∀ i c, (generateImagesCalls c7Api "cartoon" "sA" c7Store)[i]? = some c →
      c.prevArg =
        (((generateImagesCalls c7Api "cartoon" "sA" c7Store).take i).filter
          (fun c2 => imgSuccess c2.url)).map ImgCall.url) :=
  images_sequential_consistency c7Api "cartoon" "sA" c7Store (by decide)
